import Mathlib

/-
Shallow embedding of the mobc connection pool core (src/src/lib.rs).

Modelling conventions:
- `Instant` timestamps are `Nat` (an abstract monotone clock value).
- `u32`/`u64` counters are `Nat`; every counter in a reachable state is
  bounded by `max_size`, so machine overflow is impossible in the states
  the theorems talk about; `u32` subtraction on the success path happens
  only when `pending_conns > 0`, which the step relation records as the
  precondition for that transition (a completion event exists only for a
  previously spawned task).
- All mutation of `PoolInternals` in the source happens with the mutex
  held, so each locked section is embedded as one atomic state
  transformer.
- Spawning a background task and the task's own completion are separate
  transitions: `add_connection` only increments `pending_conns`
  (and spawns), `connectSuccess` / `connectFailureStep` are what the
  spawned future does in its own locked section when `connect` resolves.
- Manager interactions are recorded in an event trace (`Ev`) so that
  non-invocation of `is_valid` / `has_broken`, polling behaviour and the
  absence of any suspension primitive become provable statements about
  the embedded code. `Ev.suspend` exists in the event alphabet so that
  "the caller is never suspended" is statable; no definition below emits
  it because the source contains no suspension point in the acquire path.
-/

namespace Mobc

/-- Events observable at the manager / scheduler boundary during pool
operations. `spawnConnect` is emitted when a replenishment task (whose
first action is `manager.connect()`) is spawned; `pollIdle` when the
idle registry is polled by `try_get_inner`; `isValidCall`,
`hasBrokenCall` would be emitted by invocations of the corresponding
manager operations; `suspend` would be emitted by parking the caller on
a notification. -/
inductive Ev
  | spawnConnect
  | isValidCall
  | hasBrokenCall
  | pollIdle
  | suspend
deriving DecidableEq, Repr

/-- `struct Conn<C> { raw: Option<C>, id: u64, birth: Instant }` -/
structure Conn (C : Type) where
  raw : Option C
  id : Nat
  birth : Nat
deriving DecidableEq, Repr

/-- `struct IdleConn<C> { conn: Conn<C>, idle_start: Instant }` -/
structure IdleConn (C : Type) where
  conn : Conn C
  idle_start : Nat
deriving DecidableEq, Repr

/-- `struct PoolInternals<C>`: the single mutex-guarded aggregate.
`conns` is the `Vec<IdleConn<C>>` idle registry, in `Vec` order
(push appends at the end, pop removes from the end). -/
structure PoolInternals (C : Type) where
  conns : List (IdleConn C)
  num_conns : Nat
  pending_conns : Nat
  last_error : Option String
deriving DecidableEq, Repr

/-- `Vec::push`: append at the end. -/
def vecPush {α : Type} (l : List α) (x : α) : List α := l ++ [x]

/-- `Vec::pop`: remove and return the last element, if any. -/
def vecPop {α : Type} : List α → Option (α × List α)
  | [] => none
  | [x] => some (x, [])
  | x :: y :: xs =>
    match vecPop (y :: xs) with
    | some (z, zs) => some (z, x :: zs)
    | none => none

/-- `pub enum Error<E> { Inner(E), Timeout }`: the error type surfaced
to callers. -/
inductive Error (E : Type) where
  | Inner (e : E)
  | Timeout
deriving DecidableEq, Repr

/-- `add_connection` (lib.rs 201-210), the part executed in the caller's
critical section: if `num_conns + pending_conns >= max_size`, return
without effect; otherwise increment `pending_conns` (same critical
section as the check) and spawn the replenishment task, whose first
action is `manager.connect()` (recorded as `Ev.spawnConnect`). -/
def add_connection {C : Type} (maxSize : Nat) (s : PoolInternals C) :
    PoolInternals C × List Ev :=
  if s.num_conns + s.pending_conns ≥ maxSize then (s, [])
  else ({ s with pending_conns := s.pending_conns + 1 }, [Ev.spawnConnect])

/-- `n` successive calls of `add_connection` on the evolving state: the
body of the `for _ in idle..min` loop of `establish_idle_connections`. -/
def addConnIter {C : Type} (maxSize : Nat) : Nat → PoolInternals C → PoolInternals C × List Ev
  | 0, s => (s, [])
  | n + 1, s =>
    let r := add_connection maxSize s
    let k := addConnIter maxSize n r.1
    (k.1, r.2 ++ k.2)

/-- `establish_idle_connections` (lib.rs 188-199):
`min = min_idle.unwrap_or(max_size)`, `idle = conns.len()`, then
`for _ in idle..min { add_connection }` - that is, `min - idle`
(truncated subtraction) calls of `add_connection`. -/
def establish_idle_connections {C : Type} (maxSize : Nat) (minIdle : Option Nat)
    (s : PoolInternals C) : PoolInternals C × List Ev :=
  let min := minIdle.getD maxSize
  let idle := s.conns.length
  addConnIter maxSize (min - idle) s

/-- `Pool::new_inner` (lib.rs 107-124): internals start as
`{ conns: vec![], num_conns: 0, pending_conns: 0, last_error: None }`,
then `establish_idle_connections` runs under the lock before the pool
handle is returned. -/
def new_inner {C : Type} (maxSize : Nat) (minIdle : Option Nat) :
    PoolInternals C × List Ev :=
  establish_idle_connections maxSize minIdle ⟨[], 0, 0, none⟩

/-- `Pool::try_get_inner` (lib.rs 163-178). The source wraps the body in
`loop`, but both branches `return` on the first iteration, so the loop
is equivalent to its body: pop the idle registry (`Ev.pollIdle`); on
success run `establish_idle_connections` and hand the popped slot's
`conn` to the caller unchanged; on emptiness return `Err(())`
(embedded as `none`). No manager operation is invoked. -/
def try_get_inner {C : Type} (maxSize : Nat) (minIdle : Option Nat)
    (s : PoolInternals C) : Option (Conn C) × PoolInternals C × List Ev :=
  match vecPop s.conns with
  | some (ic, rest) =>
    let r := establish_idle_connections maxSize minIdle { s with conns := rest }
    (some ic.conn, r.1, Ev.pollIdle :: r.2)
  | none => (none, s, [Ev.pollIdle])

/-- The `loop` body of `Pool::get_timeout` (lib.rs 148-160), iterated
`fuel` times: each iteration calls `try_get_inner`; on `Ok(conn)` it
returns the connection; on `Err` it takes the lock, calls
`add_connection`, and immediately loops again. The source contains no
deadline check, no sleep and no suspension point between iterations, so
the only way an iteration ends without a connection is to re-poll; a
`none` result means the loop is still running after `fuel` iterations.
-/
def getTimeoutLoop {C : Type} (maxSize : Nat) (minIdle : Option Nat) :
    Nat → PoolInternals C → Option (Conn C) × PoolInternals C × List Ev
  | 0, s => (none, s, [])
  | fuel + 1, s =>
    match try_get_inner maxSize minIdle s with
    | (some c, s1, tr) => (some c, s1, tr)
    | (none, s1, tr) =>
      let r := add_connection maxSize s1
      let k := getTimeoutLoop maxSize minIdle fuel r.1
      (k.1, k.2.1, tr ++ r.2 ++ k.2.2)

/-- `Pool::get_timeout` (lib.rs 141-161): computes
`let start = Instant::now(); let end = start + timeout;` and then runs
the loop. `end` is never read again in the source - the `timeout`
argument is dead - so the embedding takes `timeout` as an argument and,
like the source, never consults it. -/
def get_timeout {C : Type} (maxSize : Nat) (minIdle : Option Nat)
    (timeout : Nat) (fuel : Nat) (s : PoolInternals C) :
    Option (Conn C) × PoolInternals C × List Ev :=
  getTimeoutLoop maxSize minIdle fuel s

/-- `CONNECTION_ID.fetch_add(1, Ordering::Relaxed)` (lib.rs 20, 226):
returns the current counter value as the new id and increments the
process-wide counter. -/
def connectionIdFetchAdd (counter : Nat) : Nat × Nat := (counter, counter + 1)

/-- The success branch of the replenishment task (lib.rs 225-243), run
in its own locked section once `connect` resolves to `Ok(conn)` with
fresh id `id` at time `now`: set `last_error = None`, build
`IdleConn { conn: Conn { raw: Some(conn), birth: now, id }, idle_start: now }`,
push it, decrement `pending_conns`, increment `num_conns`. The comment
`// todo notify the wait` marks the waiter wake-up as unimplemented:
nothing else happens. -/
def connectSuccess {C : Type} (rawConn : C) (id now : Nat)
    (s : PoolInternals C) : PoolInternals C :=
  let s1 : PoolInternals C := { s with last_error := none }
  let c : IdleConn C := { conn := { raw := some rawConn, id := id, birth := now }, idle_start := now }
  { s1 with
    conns := vecPush s1.conns c,
    pending_conns := s1.pending_conns - 1,
    num_conns := s1.num_conns + 1 }

/-- Scheduling data of one respawned retry (lib.rs 244-251):
`delayArg` is the `Duration` value passed to `inner` (the source
computes `Duration::from_millis(200)`); `startOffset` is the time that
elapses before the respawned future reaches `manager.connect()`. The
body of `inner` never reads its `delay` parameter and contains no timer
or sleep, so the respawned future starts immediately: the offset is `0`
whatever `delayArg` is. -/
structure RetrySpawn where
  delayArg : Nat
  startOffset : Nat
deriving DecidableEq, Repr

/-- The failure branch of the replenishment task (lib.rs 244-248): store
the stringified error into `last_error` and respawn via
`inner(Duration::from_millis(200), &shared)`. `pending_conns` and
`num_conns` are untouched. -/
def connectFailureStep {C : Type} (err : String) (s : PoolInternals C) :
    PoolInternals C × RetrySpawn :=
  ({ s with last_error := some err }, ⟨200, 0⟩)

/-- `struct PooledConnection<M>`: the checkout guard; the embedded part
is the connection slot it carries (the pool handle only aliases the
shared state). -/
structure PooledConnection (C : Type) where
  conn : Conn C
deriving DecidableEq, Repr

/-- `impl Drop for PooledConnection` (lib.rs 275-282): the body is
`println!("drop2");` - the pool internals are not touched at all. -/
def pooledConnectionDrop {C : Type} (s : PoolInternals C)
    (g : PooledConnection C) : PoolInternals C :=
  s

/-- `take_raw_conn` (lib.rs 266-268): `self.conn.raw.take().unwrap()`.
The returned `Option` is the `unwrap` argument: `none` means the
`unwrap` panics (raw already detached); the guard is left with
`raw = none`. -/
def take_raw_conn {C : Type} (g : PooledConnection C) :
    Option C × PooledConnection C :=
  (g.conn.raw, { g with conn := { g.conn with raw := none } })

/-- `set_raw_conn` (lib.rs 270-272): `self.conn.raw = Some(raw)`. -/
def set_raw_conn {C : Type} (g : PooledConnection C) (raw : C) :
    PooledConnection C :=
  { g with conn := { g.conn with raw := some raw } }

/-- `impl Deref` (lib.rs 284-292): `self.conn.raw.as_ref().unwrap()`.
`none` means the `unwrap` panics (fail-fast on a detached guard). -/
def derefGuard {C : Type} (g : PooledConnection C) : Option C :=
  g.conn.raw

/-- `impl DerefMut` (lib.rs 294-301): `self.conn.raw.as_mut().unwrap()`,
same fail-fast behaviour as `Deref`. -/
def derefMutGuard {C : Type} (g : PooledConnection C) : Option C :=
  g.conn.raw

/-- One atomic transition of the pool internals, each corresponding to
one locked section of the source. `connOk` requires
`0 < pending_conns`: a completion event exists only for a replenishment
task spawned earlier, and exactly `pending_conns` tasks are in flight
(incremented at spawn, decremented on success, unchanged by a failure
that respawns itself). -/
inductive Step {C : Type} (maxSize : Nat) (minIdle : Option Nat) :
    PoolInternals C → PoolInternals C → Prop
  | addConn (s : PoolInternals C) :
      Step maxSize minIdle s (add_connection maxSize s).1
  | sizing (s : PoolInternals C) :
      Step maxSize minIdle s (establish_idle_connections maxSize minIdle s).1
  | popConn (s : PoolInternals C) :
      Step maxSize minIdle s (try_get_inner maxSize minIdle s).2.1
  | connOk (s : PoolInternals C) (c : C) (id now : Nat)
      (h : 0 < s.pending_conns) :
      Step maxSize minIdle s (connectSuccess c id now s)
  | connErr (s : PoolInternals C) (err : String) :
      Step maxSize minIdle s (connectFailureStep err s).1
  | guardDrop (s : PoolInternals C) (g : PooledConnection C) :
      Step maxSize minIdle s (pooledConnectionDrop s g)

/-- States of the pool internals reachable from construction
(`new_inner`) by the transitions of `Step`. -/
inductive Reachable {C : Type} (maxSize : Nat) (minIdle : Option Nat) :
    PoolInternals C → Prop
  | init : Reachable maxSize minIdle (new_inner maxSize minIdle (C := C)).1
  | step {s t : PoolInternals C} :
      Reachable maxSize minIdle s → Step maxSize minIdle s t →
      Reachable maxSize minIdle t

theorem add_connection_num {C : Type} (maxSize : Nat) (s : PoolInternals C) :
    (add_connection maxSize s).1.num_conns = s.num_conns := by
  unfold add_connection
  split <;> rfl

theorem add_connection_conns {C : Type} (maxSize : Nat) (s : PoolInternals C) :
    (add_connection maxSize s).1.conns = s.conns := by
  unfold add_connection
  split <;> rfl

theorem add_connection_pending {C : Type} (maxSize : Nat) (s : PoolInternals C) :
    (add_connection maxSize s).1.pending_conns
      = s.pending_conns + min 1 (maxSize - (s.num_conns + s.pending_conns)) := by
  unfold add_connection
  split <;> simp <;> omega

theorem addConnIter_num {C : Type} (maxSize : Nat) (n : Nat) (s : PoolInternals C) :
    (addConnIter maxSize n s).1.num_conns = s.num_conns := by
  induction n generalizing s with
  | zero => rfl
  | succ n ih =>
    simp only [addConnIter]
    rw [ih, add_connection_num]

theorem addConnIter_conns {C : Type} (maxSize : Nat) (n : Nat) (s : PoolInternals C) :
    (addConnIter maxSize n s).1.conns = s.conns := by
  induction n generalizing s with
  | zero => rfl
  | succ n ih =>
    simp only [addConnIter]
    rw [ih, add_connection_conns]

theorem addConnIter_pending {C : Type} (maxSize : Nat) (n : Nat) (s : PoolInternals C) :
    (addConnIter maxSize n s).1.pending_conns
      = s.pending_conns + min n (maxSize - (s.num_conns + s.pending_conns)) := by
  induction n generalizing s with
  | zero => simp [addConnIter]
  | succ n ih =>
    simp only [addConnIter]
    rw [ih, add_connection_pending, add_connection_num]
    omega

theorem establish_pending {C : Type} (maxSize : Nat) (minIdle : Option Nat)
    (s : PoolInternals C) :
    (establish_idle_connections maxSize minIdle s).1.pending_conns
      = s.pending_conns
        + min (minIdle.getD maxSize - s.conns.length)
            (maxSize - (s.num_conns + s.pending_conns)) := by
  unfold establish_idle_connections
  exact addConnIter_pending maxSize _ s

theorem establish_num {C : Type} (maxSize : Nat) (minIdle : Option Nat)
    (s : PoolInternals C) :
    (establish_idle_connections maxSize minIdle s).1.num_conns = s.num_conns :=
  addConnIter_num maxSize _ s

theorem establish_conns {C : Type} (maxSize : Nat) (minIdle : Option Nat)
    (s : PoolInternals C) :
    (establish_idle_connections maxSize minIdle s).1.conns = s.conns :=
  addConnIter_conns maxSize _ s

theorem establish_inv {C : Type} (maxSize : Nat) (minIdle : Option Nat)
    (s : PoolInternals C) (h : s.num_conns + s.pending_conns ≤ maxSize) :
    (establish_idle_connections maxSize minIdle s).1.num_conns
      + (establish_idle_connections maxSize minIdle s).1.pending_conns
      ≤ maxSize := by
  rw [establish_num, establish_pending]
  omega

theorem connectSuccess_num {C : Type} (c : C) (id now : Nat) (s : PoolInternals C) :
    (connectSuccess c id now s).num_conns = s.num_conns + 1 := rfl

theorem connectSuccess_pending {C : Type} (c : C) (id now : Nat) (s : PoolInternals C) :
    (connectSuccess c id now s).pending_conns = s.pending_conns - 1 := rfl

theorem try_get_inner_inv {C : Type} (maxSize : Nat) (minIdle : Option Nat)
    (s : PoolInternals C) (h : s.num_conns + s.pending_conns ≤ maxSize) :
    (try_get_inner maxSize minIdle s).2.1.num_conns
      + (try_get_inner maxSize minIdle s).2.1.pending_conns ≤ maxSize := by
  unfold try_get_inner
  cases hp : vecPop s.conns with
  | none => simpa using h
  | some p =>
    obtain ⟨ic, rest⟩ := p
    exact establish_inv maxSize minIdle _ (by simpa using h)

theorem reachable_inv {C : Type} (maxSize : Nat) (minIdle : Option Nat)
    (s : PoolInternals C) (h : Reachable maxSize minIdle s) :
    s.num_conns + s.pending_conns ≤ maxSize := by
  induction h with
  | init =>
    simpa [new_inner] using
      establish_inv maxSize minIdle (⟨[], 0, 0, none⟩ : PoolInternals C) (by simp)
  | step _ hs ih =>
    cases hs with
    | addConn =>
      rw [add_connection_num, add_connection_pending]
      omega
    | sizing => exact establish_inv maxSize minIdle _ ih
    | popConn => exact try_get_inner_inv maxSize minIdle _ ih
    | connOk c id now hp =>
      rw [connectSuccess_num, connectSuccess_pending]
      omega
    | connErr err => exact ih
    | guardDrop g => exact ih

/-- Events a pool operation may emit: only polling the idle registry and
spawning a `connect` task. -/
def benignEv (e : Ev) : Prop := e = Ev.pollIdle ∨ e = Ev.spawnConnect

theorem add_connection_trace {C : Type} (maxSize : Nat) (s : PoolInternals C) :
    ∀ e ∈ (add_connection maxSize s).2, benignEv e := by
  unfold add_connection
  split
  · intro e he
    simp at he
  · intro e he
    simp at he
    exact Or.inr he

theorem addConnIter_trace {C : Type} (maxSize : Nat) (n : Nat) (s : PoolInternals C) :
    ∀ e ∈ (addConnIter maxSize n s).2, benignEv e := by
  induction n generalizing s with
  | zero =>
    intro e he
    simp [addConnIter] at he
  | succ n ih =>
    intro e he
    simp only [addConnIter, List.mem_append] at he
    cases he with
    | inl h => exact add_connection_trace maxSize s e h
    | inr h => exact ih _ e h

theorem establish_trace {C : Type} (maxSize : Nat) (minIdle : Option Nat)
    (s : PoolInternals C) :
    ∀ e ∈ (establish_idle_connections maxSize minIdle s).2, benignEv e :=
  addConnIter_trace maxSize _ s

theorem try_get_inner_trace {C : Type} (maxSize : Nat) (minIdle : Option Nat)
    (s : PoolInternals C) :
    ∀ e ∈ (try_get_inner maxSize minIdle s).2.2, benignEv e := by
  unfold try_get_inner
  cases hp : vecPop s.conns with
  | none =>
    intro e he
    simp at he
    exact Or.inl he
  | some p =>
    obtain ⟨ic, rest⟩ := p
    intro e he
    simp only [List.mem_cons] at he
    cases he with
    | inl h => exact Or.inl h
    | inr h => exact establish_trace maxSize minIdle _ e h

theorem getTimeoutLoop_trace {C : Type} (maxSize : Nat) (minIdle : Option Nat)
    (fuel : Nat) (s : PoolInternals C) :
    ∀ e ∈ (getTimeoutLoop maxSize minIdle fuel s).2.2, benignEv e := by
  induction fuel generalizing s with
  | zero =>
    intro e he
    simp [getTimeoutLoop] at he
  | succ n ih =>
    intro e he
    simp only [getTimeoutLoop] at he
    cases hg : try_get_inner maxSize minIdle s with
    | mk o rest =>
      obtain ⟨s1, tr⟩ := rest
      rw [hg] at he
      cases o with
      | some c =>
        simp only at he
        have := try_get_inner_trace maxSize minIdle s
        rw [hg] at this
        exact this e he
      | none =>
        simp only [List.mem_append] at he
        rcases he with (h | h) | h
        · have := try_get_inner_trace maxSize minIdle s
          rw [hg] at this
          exact this e h
        · exact add_connection_trace maxSize s1 e h
        · exact ih _ e h

/-- A pool at capacity with an empty idle registry: `max_size = 1`, the
single live connection checked out (`num_conns = 1`), no task in flight.
With a manager whose `connect` never completes, no background
transition can alter this state, so the acquire loop observes it on
every iteration. -/
def stuckState : PoolInternals Nat := ⟨[], 1, 0, none⟩

theorem getTimeoutLoop_stuck (minIdle : Option Nat) (fuel : Nat) :
    getTimeoutLoop 1 minIdle fuel stuckState
      = (none, stuckState, List.replicate fuel Ev.pollIdle) := by
  induction fuel with
  | zero => rfl
  | succ n ih =>
    have h1 : try_get_inner 1 minIdle stuckState
        = (none, stuckState, [Ev.pollIdle]) := rfl
    have h2 : add_connection 1 stuckState = (stuckState, []) := rfl
    simp only [getTimeoutLoop, h1, h2, ih, List.replicate_succ]
    rfl

/-- C1: the claim says a healthy drop pushes the slot back and releasing
then re-acquiring yields the same id. In the code, `Drop` for
`PooledConnection` only prints a debug line: dropping a guard with a
healthy raw value attached leaves the pool internals unchanged - the
slot is not pushed back into the idle registry, `idle_start` is never
reset, no waiter is woken - and an immediate re-acquire finds the
registry still empty instead of a slot with the same id. -/
theorem C1_drop_returns_nothing :
    pooledConnectionDrop stuckState (⟨⟨some 0, 5, 7⟩⟩ : PooledConnection Nat)
        = stuckState
    ∧ (pooledConnectionDrop stuckState
        (⟨⟨some 0, 5, 7⟩⟩ : PooledConnection Nat)).conns = []
    ∧ (try_get_inner 1 none
        (pooledConnectionDrop stuckState
          (⟨⟨some 0, 5, 7⟩⟩ : PooledConnection Nat))).1 = none :=
  ⟨rfl, rfl, rfl⟩

/-- C2: the claim says `get_timeout D` fails with `Timeout` once the
deadline `start + D` elapses. In the code, `end` is computed and never
read: the result of `get_timeout` is identical for every timeout value,
and in a pool where no slot can appear the loop still has no result
after any number of iterations - it never returns `Error.Timeout`
(whose type indeed only has the `Inner` and `Timeout` shapes). -/
theorem C2_deadline_never_enforced {C : Type} {E : Type} (maxSize : Nat)
    (minIdle : Option Nat) (d d2 fuel : Nat) (s : PoolInternals C) :
    get_timeout maxSize minIdle d fuel s = get_timeout maxSize minIdle d2 fuel s
    ∧ (get_timeout 1 minIdle d fuel stuckState).1 = none
    ∧ (∀ e : Error E, (∃ x, e = Error.Inner x) ∨ e = Error.Timeout) := by
  refine ⟨rfl, ?_, ?_⟩
  · simp [get_timeout, getTimeoutLoop_stuck]
  · intro e
    cases e with
    | Inner x => exact Or.inl ⟨x, rfl⟩
    | Timeout => exact Or.inr rfl

/-- C3: `add_connection` schedules a new connection attempt only if
`num_conns + pending_conns < max_size`, incrementing `pending_conns` in
the same critical section as the check (the check-and-increment is one
atomic transformer because the caller holds the lock throughout), and
otherwise returns without effect; consequently
`num_conns + pending_conns ≤ max_size` holds in every reachable state
of the pool internals. -/
theorem C3_admission_and_capacity_invariant {C : Type} (maxSize : Nat)
    (minIdle : Option Nat) :
    (∀ s : PoolInternals C, s.num_conns + s.pending_conns ≥ maxSize →
        add_connection maxSize s = (s, []))
    ∧ (∀ s : PoolInternals C, s.num_conns + s.pending_conns < maxSize →
        add_connection maxSize s
          = ({ s with pending_conns := s.pending_conns + 1 }, [Ev.spawnConnect]))
    ∧ (∀ s : PoolInternals C, Reachable maxSize minIdle s →
        s.num_conns + s.pending_conns ≤ maxSize) := by
  refine ⟨?_, ?_, ?_⟩
  · intro s h
    unfold add_connection
    rw [if_pos h]
  · intro s h
    unfold add_connection
    rw [if_neg (by omega)]
  · intro s h
    exact reachable_inv maxSize minIdle s h

theorem C3_witness :
    add_connection 2 (⟨[], 1, 1, none⟩ : PoolInternals Nat) = (⟨[], 1, 1, none⟩, [])
    ∧ add_connection 2 (⟨[], 1, 0, none⟩ : PoolInternals Nat)
        = (⟨[], 1, 1, none⟩, [Ev.spawnConnect])
    ∧ (new_inner 2 (some 1) (C := Nat)).1.num_conns
        + (new_inner 2 (some 1) (C := Nat)).1.pending_conns ≤ 2 := by
  refine ⟨?_, ?_, ?_⟩
  · exact (C3_admission_and_capacity_invariant 2 (some 1)).1
      (⟨[], 1, 1, none⟩ : PoolInternals Nat) (by decide)
  · exact (C3_admission_and_capacity_invariant 2 (some 1)).2.1
      (⟨[], 1, 0, none⟩ : PoolInternals Nat) (by decide)
  · exact (C3_admission_and_capacity_invariant 2 (some 1)).2.2 _ Reachable.init

/-- C4: the claim says an acquirer facing an empty registry is suspended
on a notification and never busy-polls. In the code there is no
notification primitive at all (the success path carries
`// todo notify the wait`): with the registry empty and the pool at
capacity, `fuel` iterations of the acquire loop emit `fuel` idle-registry
polls and zero suspension events, and still produce no result - the
caller re-polls in a loop without ever suspending. -/
theorem C4_acquire_busy_polls (minIdle : Option Nat) (timeout fuel : Nat) :
    (get_timeout 1 minIdle timeout fuel stuckState).1 = none
    ∧ (get_timeout 1 minIdle timeout fuel stuckState).2.2.count Ev.pollIdle = fuel
    ∧ (get_timeout 1 minIdle timeout fuel stuckState).2.2.count Ev.suspend = 0 := by
  have h := getTimeoutLoop_stuck minIdle fuel
  refine ⟨?_, ?_, ?_⟩ <;>
    simp [get_timeout, h, List.count_replicate]

/-- C5: on a successful `connect` the replenishment task does allocate
the next id from the process-wide counter (ids strictly increase),
stamp `birth = idle_start = now`, push the idle entry, clear
`last_error`, decrement `pending_conns` and increment `num_conns` - the
concrete evaluation below exhibits all of these - but it wakes no
waiter: the handler ends right after the counter updates, the wake-up
being marked `// todo notify the wait` in the source. -/
theorem C5_success_effects_without_wake :
    connectSuccess 42 (connectionIdFetchAdd 7).1 100
        (⟨[], 1, 1, some "boom"⟩ : PoolInternals Nat)
      = ⟨[⟨⟨some 42, 7, 100⟩, 100⟩], 2, 0, none⟩
    ∧ (connectionIdFetchAdd 7).2 = 8 :=
  ⟨rfl, rfl⟩

/-- C6: on a failed `connect` the task records the stringified error
into `last_error` and leaves `pending_conns` (and `num_conns`)
untouched, as the claim says; but the respawned retry starts
immediately (`startOffset = 0`): the 200 ms backoff duration is
computed and passed to `inner`, whose body never reads its `delay`
parameter and contains no timer, so no backoff interval elapses before
the retry. -/
theorem C6_retry_without_backoff {C : Type} (err : String) (s : PoolInternals C) :
    connectFailureStep err s = ({ s with last_error := some err }, ⟨200, 0⟩)
    ∧ (connectFailureStep err s).1.pending_conns = s.pending_conns
    ∧ (connectFailureStep err s).1.num_conns = s.num_conns
    ∧ (connectFailureStep err s).2.delayArg = 200
    ∧ (connectFailureStep err s).2.startOffset = 0 :=
  ⟨rfl, rfl, rfl, rfl, rfl⟩

/-- C7: the claim says a detached (or broken) guard's destruction
discards the slot, decrementing `num_conns` and requesting a
replacement. In the code, `Drop` does nothing to the internals:
dropping a detached guard leaves `num_conns` undecremented and
`pending_conns` at zero (no replacement requested). Only the
"never reinserted" part holds, vacuously. -/
theorem C7_drop_detached_no_discard :
    (pooledConnectionDrop stuckState
        (⟨⟨none, 6, 8⟩⟩ : PooledConnection Nat)).num_conns = 1
    ∧ (pooledConnectionDrop stuckState
        (⟨⟨none, 6, 8⟩⟩ : PooledConnection Nat)).pending_conns = 0
    ∧ pooledConnectionDrop stuckState (⟨⟨none, 6, 8⟩⟩ : PooledConnection Nat)
        = stuckState :=
  ⟨rfl, rfl, rfl⟩

/-- C8: idle-registry sizing runs at pool construction (`new_inner`
establishes from the empty initial internals) and right after every pop
(`try_get_inner` applies it to the popped state); it compares the idle
length against `min_idle` (defaulting to `max_size` when unset) and
makes exactly `min - idle` replenishment attempts, each subject to the
admission check, raising `pending_conns` by the gap truncated to the
remaining capacity, so `max_size` is never exceeded. -/
theorem C8_idle_registry_sizing {C : Type} (maxSize : Nat) (minIdle : Option Nat)
    (s : PoolInternals C) :
    establish_idle_connections maxSize minIdle s
      = addConnIter maxSize (minIdle.getD maxSize - s.conns.length) s
    ∧ (establish_idle_connections maxSize minIdle s).1.pending_conns
        = s.pending_conns + min (minIdle.getD maxSize - s.conns.length)
            (maxSize - (s.num_conns + s.pending_conns))
    ∧ new_inner maxSize minIdle (C := C)
        = establish_idle_connections maxSize minIdle ⟨[], 0, 0, none⟩
    ∧ (∀ (ic : IdleConn C) (rest : List (IdleConn C)),
        vecPop s.conns = some (ic, rest) →
        (try_get_inner maxSize minIdle s).2.1
          = (establish_idle_connections maxSize minIdle { s with conns := rest }).1)
    ∧ (s.num_conns + s.pending_conns ≤ maxSize →
        (establish_idle_connections maxSize minIdle s).1.num_conns
          + (establish_idle_connections maxSize minIdle s).1.pending_conns
          ≤ maxSize) := by
  refine ⟨rfl, establish_pending maxSize minIdle s, rfl, ?_, establish_inv maxSize minIdle s⟩
  intro ic rest hp
  unfold try_get_inner
  rw [hp]

theorem C8_witness :
    (try_get_inner 2 none (⟨[⟨⟨some 3, 0, 0⟩, 0⟩], 1, 0, none⟩ : PoolInternals Nat)).2.1
      = (establish_idle_connections 2 none
          ({ (⟨[⟨⟨some 3, 0, 0⟩, 0⟩], 1, 0, none⟩ : PoolInternals Nat) with
              conns := [] })).1
    ∧ (establish_idle_connections 2 none
          (⟨[⟨⟨some 3, 0, 0⟩, 0⟩], 1, 0, none⟩ : PoolInternals Nat)).1.num_conns
        + (establish_idle_connections 2 none
          (⟨[⟨⟨some 3, 0, 0⟩, 0⟩], 1, 0, none⟩ : PoolInternals Nat)).1.pending_conns
        ≤ 2 := by
  have h := C8_idle_registry_sizing 2 none
    (⟨[⟨⟨some 3, 0, 0⟩, 0⟩], 1, 0, none⟩ : PoolInternals Nat)
  exact ⟨h.2.2.2.1 ⟨⟨some 3, 0, 0⟩, 0⟩ [] (by decide), h.2.2.2.2 (by decide)⟩

/-- C9: while the guard's raw value is detached by `take_raw_conn`, both
`Deref` and `DerefMut` hit `Option::unwrap` on `None` - a fail-fast
panic rather than a connection - and after reattaching via
`set_raw_conn` both yield the attached connection again. -/
theorem C9_detached_deref_fails_fast {C : Type} (g : PooledConnection C) (v : C) :
    derefGuard (take_raw_conn g).2 = none
    ∧ derefMutGuard (take_raw_conn g).2 = none
    ∧ derefGuard (set_raw_conn (take_raw_conn g).2 v) = some v
    ∧ derefMutGuard (set_raw_conn (take_raw_conn g).2 v) = some v :=
  ⟨rfl, rfl, rfl, rfl⟩

/-- C10: acquisition never performs a health check: the whole event
trace of `get_timeout` (any fuel, any state) contains no `is_valid` and
no `has_broken` invocation, and a slot popped by `try_get_inner` is
handed to the caller as exactly the popped `conn` record - same id,
birth and raw value. -/
theorem C10_no_health_check_on_acquire {C : Type} (maxSize : Nat)
    (minIdle : Option Nat) (timeout fuel : Nat) (s : PoolInternals C) :
    (get_timeout maxSize minIdle timeout fuel s).2.2.count Ev.isValidCall = 0
    ∧ (get_timeout maxSize minIdle timeout fuel s).2.2.count Ev.hasBrokenCall = 0
    ∧ (∀ (ic : IdleConn C) (rest : List (IdleConn C)),
        vecPop s.conns = some (ic, rest) →
        (try_get_inner maxSize minIdle s).1 = some ic.conn) := by
  refine ⟨?_, ?_, ?_⟩
  · rw [List.count_eq_zero]
    intro hmem
    rcases getTimeoutLoop_trace maxSize minIdle fuel s _ hmem with h | h <;>
      exact absurd h (by decide)
  · rw [List.count_eq_zero]
    intro hmem
    rcases getTimeoutLoop_trace maxSize minIdle fuel s _ hmem with h | h <;>
      exact absurd h (by decide)
  · intro ic rest hp
    unfold try_get_inner
    rw [hp]

theorem C10_witness :
    (get_timeout 1 none 5 2
        (⟨[⟨⟨some 9, 4, 2⟩, 3⟩], 1, 0, none⟩ : PoolInternals Nat)).2.2.count
        Ev.isValidCall = 0
    ∧ (try_get_inner 1 none
        (⟨[⟨⟨some 9, 4, 2⟩, 3⟩], 1, 0, none⟩ : PoolInternals Nat)).1
        = some ⟨some 9, 4, 2⟩ := by
  have h := C10_no_health_check_on_acquire 1 none 5 2
    (⟨[⟨⟨some 9, 4, 2⟩, 3⟩], 1, 0, none⟩ : PoolInternals Nat)
  exact ⟨h.1, h.2.2 ⟨⟨some 9, 4, 2⟩, 3⟩ [] (by decide)⟩

end Mobc
